import Mathlib

/-!
Verification of the MolDB-Screening pipeline (notebook `DB_Screening.ipynb`).

The notebook sequences a virtual-screening pipeline over a tabular database of
compounds: load, filter out positive docking scores, draw a seeded random
sample, derive classification labels at the 30th percentile, split into
train/test parts, score the whole database with the trained regressor, and
select the top-K records by predicted score.  The embedding below models the
DataFrame as a list of records with integer-valued docking scores (the
scenarios in the specification only use integer scores) and the percentile
threshold as an exact rational.
-/

/-- A row of the compound database: an identifier, the `RDKit` fingerprint
column (a fixed-length bit/count vector, modelled as a list of naturals) and
the `Scores` column holding the docking score in kcal/mol. -/
structure Compound where
  mid : Nat
  RDKit : List Nat
  Scores : Int
deriving DecidableEq, Repr

/-- Generic row filter over the database, keeping the rows whose score field
satisfies the predicate and preserving their order (the Database Loader/Filter
operation). -/
def filterDB (P : Compound → Bool) (database : List Compound) : List Compound :=
  database.filter P

/-- Embeds the cell `database = database.drop(database[ database.Scores > 0 ].index)`:
every row whose `Scores` entry is positive is dropped, the remaining rows keep
their original order. -/
def dropPositiveScores (database : List Compound) : List Compound :=
  database.filter (fun row => !(decide (row.Scores > 0)))

/-- Embeds one evaluation of the drop cell as a value pair: `DataFrame.drop` is
not in-place, so the call returns the new frame while the source frame is left
unchanged (the notebook afterwards rebinds the name `database` to the result).
The first component is the returned frame, the second the source frame as it
stands after the call. -/
def filterStep (P : Compound → Bool) (database : List Compound) :
    List Compound × List Compound :=
  (filterDB P database, database)

/-- The 10-record scenario database of the specification, with scores
[-9, -8, -7, -6, -5, -4, -3, -2, -1, 1]. -/
def scenarioDB : List Compound :=
  [⟨0, [0], -9⟩, ⟨1, [1], -8⟩, ⟨2, [2], -7⟩, ⟨3, [3], -6⟩, ⟨4, [4], -5⟩,
   ⟨5, [5], -4⟩, ⟨6, [6], -3⟩, ⟨7, [7], -2⟩, ⟨8, [8], -1⟩, ⟨9, [9], 1⟩]

/-- Ordering of scored rows by the `Predictions` column, the sort key of
`database.sort_values(by=['Predictions'], ascending=True)`. -/
def predLE (a b : Compound × Int) : Prop :=
  a.2 ≤ b.2

instance : DecidableRel predLE :=
  fun a b => inferInstanceAs (Decidable (a.2 ≤ b.2))

instance : IsTotal (Compound × Int) predLE :=
  ⟨fun a b => Int.le_total a.2 b.2⟩

instance : IsTrans (Compound × Int) predLE :=
  ⟨fun _ _ _ hab hbc => le_trans hab hbc⟩

/-- Embeds `database.sort_values(by=['Predictions'], ascending=True)`.  The
library sort is external to the repository; following the Selector contract of
the specification it is modelled as a stable sort (insertion sort), so rows
with equal predictions keep their original relative order. -/
def sort_values (database : List (Compound × Int)) : List (Compound × Int) :=
  database.insertionSort predLE

/-- Embeds the selection cell
`biased_sel = database.sort_values(by=['Predictions'], ascending=True)[:N_SAMPLE]`:
sort ascending by predicted score, then truncate to the first K rows. -/
def select (K : Nat) (database : List (Compound × Int)) : List (Compound × Int) :=
  (sort_values database).take K

/-- The scenario database after filtering, with each record carrying its own
score as the predicted score (the specification's `D_filtered_above` for the
selection scenario). -/
def scenarioScored : List (Compound × Int) :=
  (dropPositiveScores scenarioDB).map (fun row => (row, row.Scores))

/-- Modelled from the spec: `sklearn.model_selection.train_test_split` is an
external library call whose internals are not part of this repository; per the
specification it performs a seeded shuffle and then splits off a test part of
⌈r·n⌉ records, the train part holding the rest.  The shuffled order (including
any stratified reordering) is abstracted as the input list. -/
def testSize (r : ℚ) (n : Nat) : Nat :=
  (⌈r * (n : ℚ)⌉).toNat

/-- Train/test split of an (already shuffled) database at ratio `r`: the first
component is the training part, the second the test part of `testSize r n`
records. -/
def train_test_split (r : ℚ) (shuffled : List Compound) :
    List Compound × List Compound :=
  (shuffled.drop (testSize r shuffled.length),
   shuffled.take (testSize r shuffled.length))

/-- Embeds `threshold = np.percentile(y, q)` for an integer percent `q`:
following numpy's documented linear interpolation, sort the values ascending,
take the index position `q · (n − 1) / 100`, and interpolate between the two
neighbouring sorted values. -/
def percentile (y : List Int) (q : Nat) : ℚ :=
  let s := y.insertionSort (· ≤ ·)
  let i : Nat := q * (s.length - 1) / 100
  let frac : ℚ := ((q * (s.length - 1) : ℕ) : ℚ) / 100 - (i : ℚ)
  let a : ℚ := ((s.getD i 0 : ℤ) : ℚ)
  let b : ℚ := ((s.getD (i + 1) (s.getD i 0) : ℤ) : ℚ)
  a + frac * (b - a)

/-- Embeds `threshold = np.percentile(y,30); y_cls = [ score < threshold for score in y]`:
one boolean label per score, active exactly when the score is strictly below
the 30th-percentile threshold. -/
def yClsOf (y : List Int) : List Bool :=
  y.map (fun (score : Int) => decide ((score : ℚ) < percentile y 30))

/-- The 10-value score list of the classification scenario. -/
def scenarioSampleScores : List Int :=
  [-10, -9, -8, -7, -6, -5, -4, -3, -2, -1]

/-- Modelled from the spec: the pseudo-random generator behind
`database.sample(N_SAMPLE, random_state=42, ignore_index=True)` is a library
internal; it is modelled as a linear congruential generator advanced once per
draw, which realises the specification's seeded-determinism contract. -/
def lcgNext (s : Nat) : Nat :=
  (1664525 * s + 1013904223) % 4294967296

/-- Modelled from the spec: `DataFrame.sample(n, random_state=seed)` draws `n`
distinct rows from the frame, each draw removing the chosen row from the pool,
the choice being a pure function of the current generator state. -/
def sampleSeeded : List Compound → Nat → Nat → List Compound
  | _, 0, _ => []
  | [], _ + 1, _ => []
  | a :: database, n + 1, s =>
    let pool := a :: database
    let i := s % pool.length
    pool.getD i a :: sampleSeeded (pool.eraseIdx i) n (lcgNext s)

/-- Modelled from the spec: the trained regressor's `predict()` runs the frozen
model over a batch of fingerprints, one output per input row; the model is a
pure function of its frozen parameters and the batch size is independent of
the training size. -/
def predict (reg : List Nat → Int) (X : List (List Nat)) : List Int :=
  X.map reg

/-- Embeds `database['Predictions'] = predicted_scores`: attach one predicted
score per row as a new column, leaving the existing columns in place. -/
def addPredictions (database : List Compound) (predicted_scores : List Int) :
    List (Compound × Int) :=
  database.zip predicted_scores

/-- Embeds the Scorer stage:
`predicted_scores = reg.predict(database.RDKit.values.tolist())` followed by
`database['Predictions'] = predicted_scores`. -/
def scoreDatabase (reg : List Nat → Int) (database : List Compound) :
    List (Compound × Int) :=
  addPredictions database (predict reg (database.map Compound.RDKit))

/-- Embeds the docking loop
`for ligand in ligands[:N_TO_DOCK]: ... docker.dock(...);
docking_scores.append(docker.energies(n_poses=1)[0][0])`.  The loop body
contains no exception handler, so a per-ligand docking failure propagates out
of the loop.  The result is the `docking_scores` list as built up when the
loop ends, together with the propagated error, if any.  The engine itself is
external and abstracted as a function from a ligand to either its best pose
energy or a failure. -/
def dock_batch (dock : Nat → Except String Int) : List Nat → List Int × Option String
  | [] => ([], none)
  | ligand :: rest =>
    match dock ligand with
    | Except.error e => ([], some e)
    | Except.ok score =>
      let r := dock_batch dock rest
      (score :: r.1, r.2)

/-- A concrete docking engine for the counterexample: ligand 1 produces no
poses, every other ligand docks with energy equal to minus its index. -/
def dockFailsOn1 (ligand : Nat) : Except String Int :=
  if ligand = 1 then Except.error "no poses" else Except.ok (-(ligand : Int))

/-- C2: for every database and score predicate the filter returns a subset (a
sublist, hence order-preserving) of its input all of whose records satisfy the
predicate; the drop cell realises the default predicate `Scores ≤ 0`; and on
the 10-record scenario database it keeps exactly the 9 non-positive rows in
order, dropping only the `Scores = 1` row. -/
theorem filter_subset_sound_scenario :
    (∀ (P : Compound → Bool) (database : List Compound),
        (filterDB P database).Sublist database ∧
        (filterDB P database).all P = true) ∧
    (∀ database : List Compound,
        dropPositiveScores database
          = filterDB (fun row => decide (row.Scores ≤ 0)) database) ∧
    ((dropPositiveScores scenarioDB).map Compound.Scores
        = [-9, -8, -7, -6, -5, -4, -3, -2, -1] ∧
      (dropPositiveScores scenarioDB).length = 9) := by
  refine ⟨fun P database => ⟨List.filter_sublist _, ?_⟩, fun database => ?_, by decide, by decide⟩
  · simp [filterDB, List.all_eq_true, List.mem_filter]
  · simp only [dropPositiveScores, filterDB]
    congr 1
    funext row
    rw [← decide_not, decide_eq_decide]
    omega

/-- C5: the filter operation is idempotent, and it is pure: the second
component of `filterStep` — the source database as it stands after the call —
is the unchanged input. -/
theorem filter_idempotent_pure :
    ∀ (P : Compound → Bool) (database : List Compound),
      filterDB P (filterDB P database) = filterDB P database ∧
      (filterStep P database).2 = database := by
  intro P database
  refine ⟨?_, rfl⟩
  simp [filterDB, List.filter_filter]

/-- C1: the selection returns exactly min(K, |D|) rows in ascending order of
predicted score; the underlying sort is stable, so rows with any given
predicted score appear in their original relative order (stated as a filter
equation on the sorted list and a sublist property of the selection); and on
the filtered scenario database with K = 3 the selected rows carry the scores
[-9, -8, -7] in that order. -/
theorem select_size_sorted_stable :
    (∀ (database : List (Compound × Int)) (K : Nat) (v : Int),
        (select K database).length = min K database.length ∧
        (select K database).Sorted predLE ∧
        ((select K database).filter (fun row => decide (row.2 = v))).Sublist
          (database.filter (fun row => decide (row.2 = v)))) ∧
    (∀ (database : List (Compound × Int)) (v : Int),
        (sort_values database).filter (fun row => decide (row.2 = v))
          = database.filter (fun row => decide (row.2 = v))) ∧
    ((select 3 scenarioScored).map (fun row => row.1.Scores) = [-9, -8, -7]) := by
  have stable : ∀ (database : List (Compound × Int)) (v : Int),
      (sort_values database).filter (fun row => decide (row.2 = v))
        = database.filter (fun row => decide (row.2 = v)) := by
    intro database v
    set p : Compound × Int → Bool := fun row => decide (row.2 = v) with hp
    have hpw : (database.filter p).Pairwise predLE := by
      refine List.pairwise_of_forall_mem_list fun a ha b hb => ?_
      have ha2 : a.2 = v := by
        have := (List.mem_filter.mp ha).2
        simpa [hp] using this
      have hb2 : b.2 = v := by
        have := (List.mem_filter.mp hb).2
        simpa [hp] using this
      show a.2 ≤ b.2
      omega
    have hsub : (database.filter p).Sublist (sort_values database) :=
      List.sublist_insertionSort hpw (List.filter_sublist database)
    have hff : (database.filter p).filter p = database.filter p := by
      simp [List.filter_filter]
    have hsub2 : (database.filter p).Sublist ((sort_values database).filter p) :=
      hff ▸ hsub.filter p
    have hlen : ((sort_values database).filter p).length = (database.filter p).length :=
      ((List.perm_insertionSort predLE database).filter p).length_eq
    exact (hsub2.eq_of_length hlen.symm).symm
  refine ⟨fun database K v => ⟨?_, ?_, ?_⟩, stable, by decide⟩
  · simp [select, sort_values, List.length_take, List.length_insertionSort]
  · exact List.Pairwise.sublist (List.take_sublist K _)
      (List.sorted_insertionSort predLE database)
  · have h1 : ((select K database).filter (fun row => decide (row.2 = v))).Sublist
        ((sort_values database).filter (fun row => decide (row.2 = v))) :=
      List.Sublist.filter _ (List.take_sublist K _)
    exact (stable database v) ▸ h1

/-- C3: for every shuffled database and ratio r in (0,1), the train and test
parts have lengths summing to the database size, together they reassemble the
database (the partition's union is the source set), and when the records are
pairwise distinct the two parts are disjoint. -/
theorem train_test_split_partition :
    ∀ (shuffled : List Compound) (r : ℚ), 0 < r → r < 1 →
      (train_test_split r shuffled).1.length + (train_test_split r shuffled).2.length
          = shuffled.length ∧
      (train_test_split r shuffled).2 ++ (train_test_split r shuffled).1 = shuffled ∧
      (shuffled.Nodup →
        (train_test_split r shuffled).2.Disjoint (train_test_split r shuffled).1) := by
  intro shuffled r _ _
  refine ⟨?_, List.take_append_drop _ _, fun hnd => List.disjoint_take_drop hnd le_rfl⟩
  simp only [train_test_split, List.length_drop, List.length_take]
  omega

/-- Witness for C3 at the concrete 10-record scenario database with r = 1/5
(the 80/20 split). -/
theorem train_test_split_partition_witness :
    ((train_test_split (1/5) scenarioDB).1.length
        + (train_test_split (1/5) scenarioDB).2.length = scenarioDB.length) ∧
    (train_test_split (1/5) scenarioDB).2.Disjoint (train_test_split (1/5) scenarioDB).1 := by
  have h := train_test_split_partition scenarioDB (1/5) (by norm_num) (by norm_num)
  exact ⟨h.1, h.2.2 (by decide)⟩

/-- C4: on the 10 scores [-10 .. -1] the 30th-percentile threshold is -7.3 and
the labelling marks exactly the 3 most negative scores (-10, -9, -8) as active
and the remaining 7 as inactive. -/
theorem classification_threshold_scenario :
    percentile scenarioSampleScores 30 = -73/10 ∧
    yClsOf scenarioSampleScores
      = [true, true, true, false, false, false, false, false, false, false] ∧
    (yClsOf scenarioSampleScores).count true = 3 := by
  have hs : scenarioSampleScores.insertionSort (· ≤ ·) = scenarioSampleScores := by decide
  have h1 : percentile scenarioSampleScores 30 = -73/10 := by
    simp only [percentile, hs, scenarioSampleScores]
    norm_num
  have h2 : yClsOf scenarioSampleScores
      = [true, true, true, false, false, false, false, false, false, false] := by
    have hdef : yClsOf scenarioSampleScores
        = scenarioSampleScores.map
            (fun score => decide ((score : ℚ) < percentile scenarioSampleScores 30)) := rfl
    rw [hdef, h1]
    simp only [scenarioSampleScores, List.map]
    norm_num
  refine ⟨h1, h2, by rw [h2]; rfl⟩

/-- Length of a seeded sample: drawing n times from a pool of at least n rows
yields exactly n rows. -/
theorem sampleSeeded_length :
    ∀ (n : Nat) (database : List Compound) (seed : Nat),
      n ≤ database.length → (sampleSeeded database n seed).length = n := by
  intro n
  induction n with
  | zero => intro database seed _; cases database <;> rfl
  | succ n ih =>
    intro database seed h
    cases database with
    | nil => simp at h
    | cons a database =>
      have hi : seed % (database.length + 1) < database.length + 1 :=
        Nat.mod_lt _ (Nat.succ_pos _)
      have hlen : ((a :: database).eraseIdx (seed % (database.length + 1))).length
          = database.length := by
        rw [List.length_eraseIdx]
        simp [hi]
      have hle : n ≤ ((a :: database).eraseIdx (seed % (database.length + 1))).length := by
        rw [hlen]
        simpa using h
      have hrec := ih ((a :: database).eraseIdx (seed % (database.length + 1)))
        (lcgNext seed) hle
      simp only [sampleSeeded, List.length_cons]
      omega

/-- Every row of a seeded sample comes from the pool it was drawn from. -/
theorem sampleSeeded_subset :
    ∀ (n : Nat) (database : List Compound) (seed : Nat),
      ∀ row ∈ sampleSeeded database n seed, row ∈ database := by
  intro n
  induction n with
  | zero => intro database seed row hrow; cases database <;> simp [sampleSeeded] at hrow
  | succ n ih =>
    intro database seed row hrow
    cases database with
    | nil => simp [sampleSeeded] at hrow
    | cons a database =>
      have hi : seed % (a :: database).length < (a :: database).length :=
        Nat.mod_lt _ (by simp)
      simp only [sampleSeeded, List.mem_cons] at hrow
      rcases hrow with hrow | hrow
      · rw [hrow, List.getD_eq_getElem _ _ hi]
        exact List.getElem_mem hi
      · exact List.eraseIdx_subset _ _ (ih _ (lcgNext seed) row hrow)

/-- C6: sampling is a deterministic pure function of the database, the sample
size and the seed — two runs with the same arguments return the same rows in
the same order — and with n ≤ |D| the sample has exactly n rows, all drawn
from the database. -/
theorem sample_seed_deterministic :
    ∀ (database : List Compound) (n seed : Nat), n ≤ database.length →
      sampleSeeded database n seed = sampleSeeded database n seed ∧
      (sampleSeeded database n seed).length = n ∧
      (sampleSeeded database n seed).all (fun row => decide (row ∈ database)) = true := by
  intro database n seed h
  refine ⟨rfl, sampleSeeded_length n database seed h, ?_⟩
  simp only [List.all_eq_true, decide_eq_true_eq]
  exact fun row hrow => sampleSeeded_subset n database seed row hrow

/-- Witness for C6: a sample of 3 rows from the 10-record scenario database at
seed 42. -/
theorem sample_seed_deterministic_witness :
    (sampleSeeded scenarioDB 3 42).length = 3 ∧
    (sampleSeeded scenarioDB 3 42).all (fun row => decide (row ∈ scenarioDB)) = true :=
  ⟨(sample_seed_deterministic scenarioDB 3 42 (by decide)).2.1,
   (sample_seed_deterministic scenarioDB 3 42 (by decide)).2.2⟩

/-- C7: the Scorer stage maps the whole database through `predict` in one
batch and attaches the outputs as the new Predictions column: projecting the
new column away returns the input database unchanged (same rows, same fields,
same order), the new column holds exactly the batch-predict outputs, and the
row count is unchanged. -/
theorem scorer_frame :
    ∀ (reg : List Nat → Int) (database : List Compound),
      (scoreDatabase reg database).map Prod.fst = database ∧
      (scoreDatabase reg database).map Prod.snd
        = predict reg (database.map Compound.RDKit) ∧
      (scoreDatabase reg database).length = database.length := by
  intro reg database
  have hlen : (predict reg (database.map Compound.RDKit)).length = database.length := by
    simp [predict]
  refine ⟨?_, ?_, ?_⟩
  · exact List.map_fst_zip _ _ (le_of_eq hlen.symm)
  · exact List.map_snd_zip _ _ (le_of_eq hlen)
  · simp [scoreDatabase, addPredictions, List.length_zip, hlen]

/-- C8: the regressor's batch predict on the empty input list is the empty
output list (no failure), and in general the output batch has one entry per
input row. -/
theorem predict_empty_batch :
    ∀ reg : List Nat → Int,
      predict reg [] = [] ∧ ∀ X : List (List Nat), (predict reg X).length = X.length := by
  intro reg
  exact ⟨rfl, fun X => by simp [predict]⟩

/-- Counterexample to C9 as stated: with an engine that fails on ligand 1 but
docks ligand 2 successfully, the loop over [0, 1, 2] stops at the failure —
ligand 2 is never processed and its score is absent from the collected
docking scores, so the batch does not continue past a per-ligand failure. -/
theorem dock_batch_abort_counterexample :
    dockFailsOn1 2 = Except.ok (-2) ∧
    dock_batch dockFailsOn1 [0, 1, 2] = ([0], some "no poses") ∧
    ¬ ((-2 : Int) ∈ (dock_batch dockFailsOn1 [0, 1, 2]).1) := by
  refine ⟨rfl, rfl, by decide⟩

/-- C9 (amended): a docking failure on one ligand aborts the batch: the
collected scores are exactly those of the longest prefix of ligands on which
the engine succeeds, and no error is reported only when every ligand in the
batch succeeds. -/
theorem dock_batch_stops_at_first_failure :
    ∀ (dock : Nat → Except String Int) (ligands : List Nat),
      (dock_batch dock ligands).1
        = (ligands.takeWhile (fun l => (dock l).isOk)).filterMap
            (fun l => (dock l).toOption) ∧
      ((dock_batch dock ligands).2 = none ↔ ligands.all (fun l => (dock l).isOk) = true) := by
  intro dock ligands
  induction ligands with
  | nil => exact ⟨rfl, by simp [dock_batch]⟩
  | cons ligand rest ih =>
    cases hd : dock ligand with
    | error e =>
      simp [dock_batch, hd, List.takeWhile_cons, Except.isOk, Except.toBool]
    | ok score =>
      simp [dock_batch, hd, List.takeWhile_cons, Except.isOk, Except.toBool,
        Except.toOption, ih.1, ih.2]

/-- C10: the labelling uses a strict comparison, so a score exactly equal to
the computed percentile threshold is labelled inactive (false), never
active. -/
theorem threshold_boundary_inactive :
    ∀ (y : List Int) (i : Nat) (score : Int),
      y[i]? = some score → (score : ℚ) = percentile y 30 →
      (yClsOf y)[i]? = some false := by
  intro y i score hget heq
  rw [yClsOf, List.getElem?_map, hget]
  simp [← heq]

/-- Witness for C10: in the score list [1, 1] the 30th-percentile threshold is
exactly 1, and the record at index 0 with score 1 is labelled inactive. -/
theorem threshold_boundary_inactive_witness :
    (yClsOf [1, 1])[0]? = some false :=
  threshold_boundary_inactive [1, 1] 0 1 rfl
    (by
      have hs : List.insertionSort (· ≤ ·) ([1, 1] : List Int) = [1, 1] := by decide
      simp only [percentile, hs]
      norm_num)
